import Mathlib

/-!
Verification development for the AI Builder Studio repository.

The definitions below are a shallow embedding of the repository's state and
storage logic:

* `src/services/storageService.ts` — the project repository and the version
  history ledger (`getProjects`, `saveProject`, `getHistory`, `addToHistory`).
* `src/App.tsx` (the version with the version-history ledger, whose
  `handleGenerate` sits at lines 616–640) — the application state controller
  (`handleGenerate`, `handleRefine`, `confirmRestore`, `confirmClear`,
  `handleFileUpload`, `handleLoad`, `handleSave`).
* `src/components/SaveDialog.tsx` — the save dialog's click handler.
* `src/unnamed/part_000` — the source import adapter (`fetchRepoIndexHtml`).

Modelling conventions: browser `localStorage` is a `Store` record holding the
typed contents of the keys the claims concern (JSON serialization is treated
as a faithful round trip).  Asynchronous API calls are modelled by passing the
call's eventual outcome (`Except`) as an explicit argument, and `Date.now()`
by a `Nat` argument.  Fallible `localStorage.setItem` writes are modelled by a
`Bool` argument saying whether the write succeeds.  JavaScript's
`String.prototype.trim` is modelled by `jsTrim` (whitespace as in
`Char.isWhitespace`).
-/

namespace AIBuilder

/-- JavaScript `String.prototype.trim`: drop leading and trailing whitespace. -/
def jsTrim (s : String) : String :=
  String.mk (((s.data.dropWhile Char.isWhitespace).reverse.dropWhile
    Char.isWhitespace).reverse)

/-- The guard `!code || code.trim() === ''` used by the storage service and the
validation guards in `App.tsx`. -/
def isBlank (code : String) : Bool :=
  code == "" || jsTrim code == ""

/-- A snapshot in the version history ledger (`CodeVersion` in `types.ts`). -/
structure CodeVersion where
  code : String
  timestamp : Nat
deriving DecidableEq, Repr

/-- The `type` discriminant of `CodeSourceInfo` in `types.ts`. -/
inductive SourceType where
  | prompt
  | file
  | github
  | saved
deriving DecidableEq, Repr

/-- Provenance of the current code (`CodeSourceInfo` in `types.ts`). -/
structure CodeSourceInfo where
  type : SourceType
  name : String
deriving DecidableEq, Repr

/-- A named saved project (`SavedProject` in `types.ts`). -/
structure SavedProject where
  generatedCode : String
  initialPrompt : Option String
  codeSourceInfo : Option CodeSourceInfo
deriving DecidableEq, Repr

/-- The `localStorage` slots that the verified claims concern:
`ai-builder-version-history`, `ai-builder-projects`, and
`ai-builder-studio-initial-prompt`.  `none` models an absent key. -/
structure Store where
  historySlot : Option (List CodeVersion)
  projectsSlot : Option (List (String × SavedProject))
  initialPromptSlot : Option String
deriving DecidableEq, Repr

/-- A browser profile where none of the keys have ever been written. -/
def emptyStore : Store :=
  { historySlot := none, projectsSlot := none, initialPromptSlot := none }

/-- `MAX_HISTORY_ITEMS` in `storageService.ts`. -/
def MAX_HISTORY_ITEMS : Nat := 50

/-- `getHistory` in `storageService.ts`: parse the history key, empty list on
absence (parse failures also yield the empty list and are subsumed by `none`). -/
def getHistory (st : Store) : List CodeVersion :=
  st.historySlot.getD []

/-- `getProjects` in `storageService.ts`: parse the projects key, empty mapping
on absence.  A JavaScript object is modelled as an insertion-ordered
association list. -/
def getProjects (st : Store) : List (String × SavedProject) :=
  st.projectsSlot.getD []

/-- `addToHistory` in `storageService.ts`.  Returns the pair of the history it
returns to the caller and the resulting store.  A failed `setItem` (modelled by
`writeOk = false`) is caught and logged: the new history is still returned but
the store keeps its old contents. -/
def addToHistory (code : String) (now : Nat) (writeOk : Bool) (st : Store) :
    List CodeVersion × Store :=
  if isBlank code then (getHistory st, st)
  else
    let history := getHistory st
    if history.head?.map CodeVersion.code = some code then (history, st)
    else
      let newHistory := (CodeVersion.mk code now :: history).take MAX_HISTORY_ITEMS
      (newHistory, if writeOk then { st with historySlot := some newHistory } else st)

/-- JavaScript object property assignment `projects[name] = project`: replace
the value at an existing key in place, otherwise append at the end. -/
def upsert (l : List (String × SavedProject)) (name : String) (p : SavedProject) :
    List (String × SavedProject) :=
  match l with
  | [] => [(name, p)]
  | (k, v) :: rest => if k = name then (k, p) :: rest else (k, v) :: upsert rest name p

/-- `saveProject` in `storageService.ts`: read-modify-write the whole mapping;
a rejected write throws `"Could not save the project. Storage might be full."`
and leaves the store unchanged. -/
def saveProject (name : String) (project : SavedProject) (writeOk : Bool)
    (st : Store) : Except String Store :=
  let projects := upsert (getProjects st) name project
  if writeOk then Except.ok { st with projectsSlot := some projects }
  else Except.error "Could not save the project. Storage might be full."

/-- Run a sequence of `addToHistory` calls (each with its code, timestamp and
write outcome); the first component is the history returned by the last call
(the current ledger as the caller sees it). -/
def runAdds (calls : List (String × Nat × Bool)) (st : Store) :
    List CodeVersion × Store :=
  calls.foldl (fun acc call => addToHistory call.1 call.2.1 call.2.2 acc.2)
    (getHistory st, st)

/-- No two adjacent ledger entries carry the same code. -/
def adjacentDistinct (h : List CodeVersion) : Prop :=
  List.Chain' (fun a b => a.code ≠ b.code) h

/-- Well-formedness of a ledger: bounded by the capacity and free of adjacent
duplicates. -/
def ledgerWF (h : List CodeVersion) : Prop :=
  h.length ≤ MAX_HISTORY_ITEMS ∧ adjacentDistinct h

/-- The loading flag of the controller (`LoadingState` in `types.ts`):
`'idle' | 'generate' | 'refine'`. -/
inductive LoadingState where
  | idle
  | generate
  | refine
deriving DecidableEq, Repr

/-- The controller state of `App.tsx` restricted to the fields the claims
concern (presentation-only fields such as the active tab, theme, panel width
and dialog visibility flags are omitted). -/
structure AppState where
  prompt : String
  refinementPrompt : String
  initialPrompt : Option String
  generatedCode : String
  previousCode : Option String
  loadingState : LoadingState
  error : Option String
  codeSourceInfo : Option CodeSourceInfo
  savedProjects : List (String × SavedProject)
  versionHistory : List CodeVersion
  store : Store
deriving DecidableEq, Repr

/-- The controller's initial state on a fresh profile (all `useState`
initializers, with nothing persisted to restore). -/
def initialState : AppState where
  prompt := ""
  refinementPrompt := ""
  initialPrompt := none
  generatedCode := ""
  previousCode := none
  loadingState := LoadingState.idle
  error := none
  codeSourceInfo := none
  savedProjects := []
  versionHistory := []
  store := emptyStore

/-- The fixed prompt recorded for imported code in `handleFileUpload`. -/
def importedPromptText : String := "The following code was imported by the user."

/-- `handleGenerate` in `App.tsx`.  The eventual outcome of the
`generateApp` call is passed as `result`; `now` is the `Date.now()` stamp a
successful ledger append would use, and `writeOk` whether that persist
succeeds.  The function returns the state after the `finally` block has run. -/
def handleGenerate (result : Except String String) (now : Nat) (writeOk : Bool)
    (s : AppState) : AppState :=
  if jsTrim s.prompt == "" then
    { s with error := some "Please enter a description for your application." }
  else
    match result with
    | Except.ok code =>
      let r := addToHistory code now writeOk { s.store with initialPromptSlot := some s.prompt }
      { s with
        previousCode := some s.generatedCode
        initialPrompt := some s.prompt
        error := none
        generatedCode := code
        codeSourceInfo := some (CodeSourceInfo.mk SourceType.prompt s.prompt)
        versionHistory := r.1
        store := r.2
        loadingState := LoadingState.idle }
    | Except.error msg =>
      { s with
        previousCode := none
        initialPrompt := none
        error := some ("Generation failed: " ++ msg)
        store := { s.store with initialPromptSlot := none }
        loadingState := LoadingState.idle }

/-- `handleRefine` in `App.tsx`.  The second component records whether the
`refineApp` request was actually issued (false only on the validation
early-return). -/
def handleRefine (result : Except String String) (now : Nat) (writeOk : Bool)
    (s : AppState) : AppState × Bool :=
  if jsTrim s.refinementPrompt == "" then
    ({ s with error := some "Please enter a refinement request." }, false)
  else
    match result with
    | Except.ok code =>
      let r := addToHistory code now writeOk s.store
      ({ s with
          previousCode := some s.generatedCode
          error := none
          generatedCode := code
          refinementPrompt := ""
          versionHistory := r.1
          store := r.2
          loadingState := LoadingState.idle }, true)
    | Except.error msg =>
      ({ s with
          previousCode := none
          error := some ("Refinement failed: " ++ msg)
          loadingState := LoadingState.idle }, true)

/-- `confirmRestore` in `App.tsx` (the restore-version confirmation), with the
`versionToRestore` field passed explicitly. -/
def confirmRestore (versionToRestore : Option CodeVersion) (now : Nat)
    (writeOk : Bool) (s : AppState) : AppState :=
  match versionToRestore with
  | some v =>
    let r := addToHistory v.code now writeOk s.store
    { s with
      previousCode := some s.generatedCode
      generatedCode := v.code
      versionHistory := r.1
      store := r.2 }
  | none => s

/-- `confirmClear` in `App.tsx`: reset every piece of controller state and
erase the persisted ledger and prompt keys. -/
def confirmClear (s : AppState) : AppState :=
  { s with
    prompt := ""
    refinementPrompt := ""
    generatedCode := ""
    previousCode := none
    initialPrompt := none
    error := none
    codeSourceInfo := none
    versionHistory := []
    store := { s.store with historySlot := none, initialPromptSlot := none } }

/-- `handleFileUpload` in `App.tsx`.  The DOM-based HTML normalization
(`processUploadedHtml`) runs outside this model; `processedCode` is its
output. -/
def handleFileUpload (processedCode fileName : String) (now : Nat)
    (writeOk : Bool) (s : AppState) : AppState :=
  let r := addToHistory processedCode now writeOk { s.store with initialPromptSlot := some importedPromptText }
  { s with
    prompt := ""
    refinementPrompt := ""
    error := none
    previousCode := none
    generatedCode := processedCode
    initialPrompt := some importedPromptText
    codeSourceInfo := some (CodeSourceInfo.mk SourceType.file fileName)
    versionHistory := r.1
    store := r.2 }

/-- `handleClone` in `App.tsx`: delegate to `handleFileUpload`, then replace
the source descriptor with the repository variant.  The cosmetic URL-stripping
of the display name happens outside the model; `displayName` is its output. -/
def handleClone (processedCode displayName : String) (now : Nat)
    (writeOk : Bool) (s : AppState) : AppState :=
  let s1 := handleFileUpload processedCode displayName now writeOk s
  { s1 with codeSourceInfo := some (CodeSourceInfo.mk SourceType.github displayName) }

/-- `handleLoad` in `App.tsx`: look the project up in the in-memory mapping
and, if present, replace the document, prompt and source and append to the
ledger. -/
def handleLoad (projectName : String) (now : Nat) (writeOk : Bool)
    (s : AppState) : AppState :=
  match s.savedProjects.lookup projectName with
  | some project =>
    let r := addToHistory project.generatedCode now writeOk s.store
    { s with
      generatedCode := project.generatedCode
      initialPrompt := project.initialPrompt
      codeSourceInfo := some (CodeSourceInfo.mk SourceType.saved projectName)
      previousCode := none
      refinementPrompt := ""
      error := none
      versionHistory := r.1
      store := r.2 }
  | none => s

/-- `handleSave` in `App.tsx`: call `saveProject` with the current code,
prompt and source; on success refresh the in-memory mapping, on failure set
the error message and re-throw (the second component is the re-thrown
message). -/
def handleSave (projectName : String) (writeOk : Bool) (s : AppState) :
    AppState × Option String :=
  match saveProject projectName
      (SavedProject.mk s.generatedCode s.initialPrompt s.codeSourceInfo) writeOk s.store with
  | Except.ok st' => ({ s with store := st', savedProjects := getProjects st' }, none)
  | Except.error msg => ({ s with error := some msg }, some msg)

/-- The local state of `SaveDialog.tsx`. -/
structure SaveDialogState where
  isOpen : Bool
  projectName : String
  isLoading : Bool
  dialogError : Option String
deriving DecidableEq, Repr

/-- `handleSaveClick` in `SaveDialog.tsx` composed with the `onSave` callback
(`handleSave`): on a thrown save failure the dialog records the message and
does not close; on success it closes via `onClose`. -/
def handleSaveClick (d : SaveDialogState) (writeOk : Bool) (s : AppState) :
    SaveDialogState × AppState :=
  if jsTrim d.projectName == "" then
    ({ d with dialogError := some "Please enter a project name." }, s)
  else
    match handleSave (jsTrim d.projectName) writeOk s with
    | (s', none) =>
      ({ d with isLoading := false, dialogError := none, isOpen := false }, s')
    | (s', some msg) =>
      ({ d with isLoading := false, dialogError := some msg }, s')

/-- The controller operations of claim C4, plus the prompt setters the panels
expose.  Asynchronous outcomes, timestamps and persist outcomes are carried in
the operation as in the handler models above. -/
inductive Op where
  | setPrompt (p : String)
  | setRefinement (t : String)
  | generate (result : Except String String) (now : Nat) (writeOk : Bool)
  | refine (result : Except String String) (now : Nat) (writeOk : Bool)
  | upload (processedCode fileName : String) (now : Nat) (writeOk : Bool)
  | clone (processedCode displayName : String) (now : Nat) (writeOk : Bool)
  | load (projectName : String) (now : Nat) (writeOk : Bool)
  | restore (version : Option CodeVersion) (now : Nat) (writeOk : Bool)
  | clear
  | edit (newCode : String)

/-- One controller transition.  `edit` is the manual-edit path: `OutputPanel`'s
`onCodeChange` prop is `setGeneratedCode` itself. -/
def step (s : AppState) (op : Op) : AppState :=
  match op with
  | Op.setPrompt p => { s with prompt := p }
  | Op.setRefinement t => { s with refinementPrompt := t }
  | Op.generate r now w => handleGenerate r now w s
  | Op.refine r now w => (handleRefine r now w s).1
  | Op.upload c n now w => handleFileUpload c n now w s
  | Op.clone c n now w => handleClone c n now w s
  | Op.load n now w => handleLoad n now w s
  | Op.restore v now w => confirmRestore v now w s
  | Op.clear => confirmClear s
  | Op.edit c => { s with generatedCode := c }

/-- The fresh-start biconditional of claim C4: the source descriptor is null
exactly when the code document is empty. -/
def freshInv (s : AppState) : Prop :=
  s.codeSourceInfo = none ↔ s.generatedCode = ""

/-- Side conditions under which an operation is exercised in the UI: manual
edits are excluded; generated, refined, imported and loaded documents are
non-empty; refine and restore are only offered once a source is loaded. -/
def uiOk (op : Op) (s : AppState) : Prop :=
  match op with
  | Op.generate (Except.ok code) _ _ => code ≠ ""
  | Op.refine (Except.ok code) _ _ => code ≠ "" ∧ s.codeSourceInfo ≠ none
  | Op.upload code _ _ _ => code ≠ ""
  | Op.clone code _ _ _ => code ≠ ""
  | Op.load name _ _ =>
      ∀ p, s.savedProjects.lookup name = some p → p.generatedCode ≠ ""
  | Op.restore (some v) _ _ => v.code ≠ "" ∧ s.codeSourceInfo ≠ none
  | Op.edit _ => False
  | _ => True

/-- Character class `[a-zA-Z0-9_-]` of the repository-URL pattern in
`fetchRepoIndexHtml` (`src/unnamed/part_000`). -/
def isClassChar (c : Char) : Bool :=
  ('a' ≤ c && c ≤ 'z') || ('A' ≤ c && c ≤ 'Z') || ('0' ≤ c && c ≤ '9') ||
    c == '_' || c == '-'

/-- Match a literal character sequence at the front of the input, returning
the rest. -/
def stripLit : List Char → List Char → Option (List Char)
  | [], cs => some cs
  | _ :: _, [] => none
  | p :: ps, c :: cs => if c == p then stripLit ps cs else none

/-- Try the pattern `https?:\/\/github\.com\/([a-zA-Z0-9_-]+)\/([a-zA-Z0-9_-]+)`
at the current position, returning the two captured groups. -/
def matchAt (cs : List Char) : Option (String × String) :=
  match stripLit "http".data cs with
  | none => none
  | some cs1 =>
    let cs2 := match cs1 with
      | 's' :: rest => rest
      | _ => cs1
    match stripLit "://github.com/".data cs2 with
    | none => none
    | some cs3 =>
      let owner := cs3.takeWhile isClassChar
      if owner.isEmpty then none
      else
        match cs3.dropWhile isClassChar with
        | '/' :: cs5 =>
          let repo := cs5.takeWhile isClassChar
          if repo.isEmpty then none else some (String.mk owner, String.mk repo)
        | _ => none

/-- Leftmost unanchored search, as `String.prototype.match` performs. -/
def searchUrl : List Char → Option (String × String)
  | [] => none
  | c :: cs =>
    match matchAt (c :: cs) with
    | some r => some r
    | none => searchUrl cs

/-- `repoUrl.trim().match(urlRegex)` in `fetchRepoIndexHtml`, reduced to the
two capture groups. -/
def parseRepoUrl (url : String) : Option (String × String) :=
  searchUrl (jsTrim url).data

/-- An entry of the repository-contents listing, with the fields
`fetchRepoIndexHtml` inspects. -/
structure RepoFile where
  name : String
  type : String
  download_url : Option String
deriving DecidableEq, Repr

/-- The directory-listing HTTP response: status, status text and parsed JSON
body. -/
structure ListingResponse where
  status : Nat
  statusText : String
  files : List RepoFile
deriving DecidableEq, Repr

/-- The raw-file-download HTTP response. -/
structure FileResponse where
  status : Nat
  statusText : String
  text : String
deriving DecidableEq, Repr

/-- The `ok` flag of a fetch response: status in the range 200–299. -/
def statusOk (status : Nat) : Bool :=
  200 ≤ status && status ≤ 299

/-- The failure taxonomy of `fetchRepoIndexHtml`, one constructor per `throw`
site. -/
inductive ImportError where
  | invalidUrl
  | contentsNetworkError
  | notFound (owner repo : String)
  | rateLimited
  | requestFailed (statusText : String)
  | fileNotFound
  | downloadNetworkError
  | downloadFailed (statusText : String)
deriving DecidableEq, Repr

/-- The message of each thrown `Error`, verbatim from the source. -/
def ImportError.message : ImportError → String
  | ImportError.invalidUrl =>
      "Invalid GitHub repository URL. Please use the format: https://github.com/owner/repo"
  | ImportError.contentsNetworkError =>
      "Network error. Could not connect to GitHub API."
  | ImportError.notFound owner repo =>
      "Repository not found at " ++ owner ++ "/" ++ repo ++ ". Please check the URL."
  | ImportError.rateLimited =>
      "GitHub API rate limit exceeded. Please wait and try again later."
  | ImportError.requestFailed st =>
      "Could not fetch repository contents. Status: " ++ st
  | ImportError.fileNotFound =>
      "'index.html' not found in the root of the repository."
  | ImportError.downloadNetworkError =>
      "Network error. Could not download index.html."
  | ImportError.downloadFailed st =>
      "Could not download index.html. Status: " ++ st

/-- `fetchRepoIndexHtml` in `src/unnamed/part_000`.  The two `fetch` calls are
modelled by their outcomes: `Except.error ()` is a transport failure before a
response arrives. -/
def fetchRepoIndexHtml (repoUrl : String) (listing : Except Unit ListingResponse)
    (download : Except Unit FileResponse) : Except ImportError String :=
  match parseRepoUrl repoUrl with
  | none => Except.error ImportError.invalidUrl
  | some (owner, repo) =>
    match listing with
    | Except.error _ => Except.error ImportError.contentsNetworkError
    | Except.ok resp =>
      if resp.status = 404 then Except.error (ImportError.notFound owner repo)
      else if resp.status = 403 then Except.error ImportError.rateLimited
      else if statusOk resp.status then
        match resp.files.find? (fun f => f.name == "index.html" && f.type == "file") with
        | none => Except.error ImportError.fileNotFound
        | some f =>
          match f.download_url with
          | none => Except.error ImportError.fileNotFound
          | some u =>
            if u == "" then Except.error ImportError.fileNotFound
            else
              match download with
              | Except.error _ => Except.error ImportError.downloadNetworkError
              | Except.ok fr =>
                if statusOk fr.status then Except.ok fr.text
                else Except.error (ImportError.downloadFailed fr.statusText)
      else Except.error (ImportError.requestFailed resp.statusText)

theorem addToHistory_blank {code : String} (now : Nat) (writeOk : Bool) (st : Store)
    (hb : isBlank code = true) :
    addToHistory code now writeOk st = (getHistory st, st) := by
  simp [addToHistory, hb]

theorem addToHistory_dup {code : String} (now : Nat) (writeOk : Bool) (st : Store)
    (hb : isBlank code = false)
    (hh : (getHistory st).head?.map CodeVersion.code = some code) :
    addToHistory code now writeOk st = (getHistory st, st) := by
  simp [addToHistory, hb, hh]

/-- The prepended-and-truncated ledger built in the non-no-op branch of
`addToHistory`. -/
def pushHistory (code : String) (now : Nat) (st : Store) : List CodeVersion :=
  (CodeVersion.mk code now :: getHistory st).take MAX_HISTORY_ITEMS

theorem addToHistory_push {code : String} (now : Nat) (writeOk : Bool) (st : Store)
    (hb : isBlank code = false)
    (hh : ¬ (getHistory st).head?.map CodeVersion.code = some code) :
    addToHistory code now writeOk st =
      (pushHistory code now st,
        if writeOk then { st with historySlot := some (pushHistory code now st) } else st) := by
  simp [addToHistory, hb, hh, pushHistory]

theorem addToHistory_wf (code : String) (now : Nat) (writeOk : Bool) (st : Store)
    (hw : ledgerWF (getHistory st)) :
    ledgerWF (addToHistory code now writeOk st).1 ∧
    ledgerWF (getHistory (addToHistory code now writeOk st).2) := by
  by_cases hb : isBlank code
  · rw [addToHistory_blank now writeOk st hb]
    exact ⟨hw, hw⟩
  · rw [Bool.not_eq_true] at hb
    by_cases hh : (getHistory st).head?.map CodeVersion.code = some code
    · rw [addToHistory_dup now writeOk st hb hh]
      exact ⟨hw, hw⟩
    · rw [addToHistory_push now writeOk st hb hh]
      have hnew : ledgerWF (pushHistory code now st) := by
        rw [pushHistory]
        constructor
        · exact List.length_take_le _ _
        · refine List.Chain'.take ?_ _
          refine List.chain'_cons'.2 ⟨?_, hw.2⟩
          intro y hy heq
          apply hh
          rw [Option.mem_def] at hy
          rw [hy, Option.map_some']
          exact congrArg some heq.symm
      refine ⟨hnew, ?_⟩
      cases writeOk
      · exact hw
      · exact hnew

theorem runAdds_wf_aux (calls : List (String × Nat × Bool)) :
    ∀ acc : List CodeVersion × Store, ledgerWF acc.1 → ledgerWF (getHistory acc.2) →
      ledgerWF (calls.foldl
        (fun acc call => addToHistory call.1 call.2.1 call.2.2 acc.2) acc).1 ∧
      ledgerWF (getHistory (calls.foldl
        (fun acc call => addToHistory call.1 call.2.1 call.2.2 acc.2) acc).2) := by
  induction calls with
  | nil => exact fun acc h1 h2 => ⟨h1, h2⟩
  | cons c cs ih =>
    intro acc h1 h2
    simp only [List.foldl_cons]
    exact ih _ (addToHistory_wf c.1 c.2.1 c.2.2 acc.2 h2).1
      (addToHistory_wf c.1 c.2.1 c.2.2 acc.2 h2).2

/-- C1: for every sequence of `addToHistory` calls starting from an empty
ledger, the history the caller ends up with has length at most 50 and no two
adjacent entries with equal code. -/
theorem history_bounded_and_adjacent_distinct (calls : List (String × Nat × Bool)) :
    (runAdds calls emptyStore).1.length ≤ 50 ∧
    adjacentDistinct (runAdds calls emptyStore).1 := by
  have h := runAdds_wf_aux calls (getHistory emptyStore, emptyStore)
    ⟨by simp [getHistory, emptyStore], List.chain'_nil⟩
    ⟨by simp [getHistory, emptyStore], List.chain'_nil⟩
  exact ⟨h.1.1, h.1.2⟩

/-- C8: `addToHistory` with the empty string, or with the code already at the
head of the ledger, is a no-op: the current history is returned and the store
is not written. -/
theorem addToHistory_blank_and_head_noop (st : Store) (c : String) (t t' : Nat)
    (w w' : Bool) (hh : (getHistory st).head?.map CodeVersion.code = some c) :
    addToHistory "" t w st = (getHistory st, st) ∧
    addToHistory c t' w' st = (getHistory st, st) := by
  constructor
  · exact addToHistory_blank t w st (by decide)
  · by_cases hb : isBlank c
    · exact addToHistory_blank t' w' st hb
    · rw [Bool.not_eq_true] at hb
      exact addToHistory_dup t' w' st hb hh

theorem addToHistory_blank_and_head_noop_witness :
    addToHistory "" 9 true
        (Store.mk (some [CodeVersion.mk "x" 5]) none none) =
      (getHistory (Store.mk (some [CodeVersion.mk "x" 5]) none none),
        Store.mk (some [CodeVersion.mk "x" 5]) none none) ∧
    addToHistory "x" 9 true
        (Store.mk (some [CodeVersion.mk "x" 5]) none none) =
      (getHistory (Store.mk (some [CodeVersion.mk "x" 5]) none none),
        Store.mk (some [CodeVersion.mk "x" 5]) none none) :=
  addToHistory_blank_and_head_noop
    (Store.mk (some [CodeVersion.mk "x" 5]) none none) "x" 9 9 true true (by decide)

/-- C10: duplicate suppression only compares with the head, so the sequence
`addToHistory "x"`, `addToHistory "y"`, `addToHistory "x"` (all non-blank,
`"x" ≠ "y"`) leaves two non-adjacent entries with equal code in the ledger. -/
theorem history_nonadjacent_duplicate :
    (runAdds [("x", 1, true), ("y", 2, true), ("x", 3, true)] emptyStore).1 =
      [CodeVersion.mk "x" 3, CodeVersion.mk "y" 2, CodeVersion.mk "x" 1] ∧
    isBlank "x" = false ∧ isBlank "y" = false ∧ "x" ≠ "y" := by
  refine ⟨by decide, by decide, by decide, by decide⟩

theorem lookup_upsert (l : List (String × SavedProject)) (name : String)
    (p : SavedProject) : (upsert l name p).lookup name = some p := by
  induction l with
  | nil => simp [upsert, List.lookup]
  | cons kv rest ih =>
    obtain ⟨k, v⟩ := kv
    by_cases hk : k = name
    · subst hk
      simp [upsert, List.lookup]
    · have hbeq : (name == k) = false := beq_eq_false_iff_ne.2 (Ne.symm hk)
      simp [upsert, hk, List.lookup, hbeq, ih]

theorem keys_upsert_mem (l : List (String × SavedProject)) (name : String)
    (p : SavedProject) (h : name ∈ l.map Prod.fst) :
    (upsert l name p).map Prod.fst = l.map Prod.fst := by
  induction l with
  | nil => simp at h
  | cons kv rest ih =>
    obtain ⟨k, v⟩ := kv
    by_cases hk : k = name
    · simp [upsert, hk]
    · have hmem : name ∈ rest.map Prod.fst := by
        simp only [List.map_cons, List.mem_cons] at h
        exact h.resolve_left (fun heq => hk heq.symm)
      simp [upsert, hk, ih hmem]

theorem keys_upsert_not_mem (l : List (String × SavedProject)) (name : String)
    (p : SavedProject) (h : name ∉ l.map Prod.fst) :
    (upsert l name p).map Prod.fst = l.map Prod.fst ++ [name] := by
  induction l with
  | nil => simp [upsert]
  | cons kv rest ih =>
    obtain ⟨k, v⟩ := kv
    have hk : ¬ k = name := fun heq => h (by simp [heq])
    have hrest : name ∉ rest.map Prod.fst := fun hm => h (by simp [hm])
    simp [upsert, hk, ih hrest]

theorem nodup_keys_upsert (l : List (String × SavedProject)) (name : String)
    (p : SavedProject) (h : (l.map Prod.fst).Nodup) :
    ((upsert l name p).map Prod.fst).Nodup := by
  by_cases hm : name ∈ l.map Prod.fst
  · rw [keys_upsert_mem l name p hm]
    exact h
  · rw [keys_upsert_not_mem l name p hm]
    refine List.Nodup.append h (List.nodup_singleton name) ?_
    intro x hx hx'
    simp only [List.mem_singleton] at hx'
    exact hm (hx' ▸ hx)

theorem mem_keys_of_lookup {l : List (String × SavedProject)} {name : String}
    {p : SavedProject} (h : l.lookup name = some p) : name ∈ l.map Prod.fst := by
  induction l with
  | nil => simp [List.lookup] at h
  | cons kv rest ih =>
    obtain ⟨k, v⟩ := kv
    by_cases hk : name = k
    · simp [hk]
    · have hbeq : (name == k) = false := beq_eq_false_iff_ne.2 hk
      simp only [List.lookup, hbeq] at h
      simp [ih h]

/-- C5: `saveProject name P` followed by reading the project list yields a
mapping with `name ↦ P`; a second `saveProject name P2` overwrites the entry
(key still present exactly once) instead of duplicating it. -/
theorem saveProject_then_list (name : String) (P P2 : SavedProject) (st : Store)
    (hnd : ((getProjects st).map Prod.fst).Nodup) :
    ∃ st1 st2,
      saveProject name P true st = Except.ok st1 ∧
      saveProject name P2 true st1 = Except.ok st2 ∧
      (getProjects st1).lookup name = some P ∧
      (getProjects st2).lookup name = some P2 ∧
      ((getProjects st2).map Prod.fst).Nodup ∧
      ((getProjects st2).map Prod.fst).count name = 1 := by
  refine ⟨_, _, rfl, rfl, ?_, ?_, ?_, ?_⟩
  · simp only [getProjects, Option.getD_some]
    exact lookup_upsert _ name P
  · simp only [getProjects, Option.getD_some]
    exact lookup_upsert _ name P2
  · simp only [getProjects, Option.getD_some]
    exact nodup_keys_upsert _ name P2 (nodup_keys_upsert _ name P hnd)
  · simp only [getProjects, Option.getD_some]
    refine List.count_eq_one_of_mem
      (nodup_keys_upsert _ name P2 (nodup_keys_upsert _ name P hnd)) ?_
    exact mem_keys_of_lookup (lookup_upsert _ name P2)

/-- C9: the import adapter's failure taxonomy — `InvalidUrl` when the URL does
not match the fixed owner/repo pattern, `NotFound` referencing owner/repo on
HTTP 404, `RateLimited` on HTTP 403, `RequestFailed` on any other non-success
status, and `FileNotFound` when the listing has no file entry named exactly
`index.html`. -/
theorem fetchRepoIndexHtml_error_taxonomy (repoUrl owner repo : String)
    (resp : ListingResponse) (listing : Except Unit ListingResponse)
    (download : Except Unit FileResponse) :
    (parseRepoUrl repoUrl = none →
      fetchRepoIndexHtml repoUrl listing download =
        Except.error ImportError.invalidUrl) ∧
    (parseRepoUrl repoUrl = some (owner, repo) →
      (resp.status = 404 →
        fetchRepoIndexHtml repoUrl (Except.ok resp) download =
          Except.error (ImportError.notFound owner repo) ∧
        (ImportError.notFound owner repo).message =
          "Repository not found at " ++ owner ++ "/" ++ repo ++
            ". Please check the URL.") ∧
      (resp.status = 403 →
        fetchRepoIndexHtml repoUrl (Except.ok resp) download =
          Except.error ImportError.rateLimited) ∧
      (resp.status ≠ 404 → resp.status ≠ 403 → statusOk resp.status = false →
        fetchRepoIndexHtml repoUrl (Except.ok resp) download =
          Except.error (ImportError.requestFailed resp.statusText)) ∧
      (statusOk resp.status = true →
        resp.files.find? (fun f => f.name == "index.html" && f.type == "file") = none →
        fetchRepoIndexHtml repoUrl (Except.ok resp) download =
          Except.error ImportError.fileNotFound)) := by
  constructor
  · intro hparse
    simp [fetchRepoIndexHtml, hparse]
  · intro hparse
    refine ⟨?_, ?_, ?_, ?_⟩
    · intro h404
      exact ⟨by simp [fetchRepoIndexHtml, hparse, h404], rfl⟩
    · intro h403
      have hne : resp.status ≠ 404 := by
        rw [h403]
        decide
      simp [fetchRepoIndexHtml, hparse, hne, h403]
    · intro h404 h403 hok
      simp [fetchRepoIndexHtml, hparse, h404, h403, hok]
    · intro hok hfind
      have h404 : resp.status ≠ 404 := by
        intro h
        rw [h] at hok
        exact absurd hok (by decide)
      have h403 : resp.status ≠ 403 := by
        intro h
        rw [h] at hok
        exact absurd hok (by decide)
      simp [fetchRepoIndexHtml, hparse, h404, h403, hok, hfind]

theorem fetchRepoIndexHtml_error_taxonomy_witness :
    fetchRepoIndexHtml "https://github.com/acme/app"
        (Except.ok (ListingResponse.mk 404 "Not Found" []))
        (Except.error ()) =
      Except.error (ImportError.notFound "acme" "app") :=
  (((fetchRepoIndexHtml_error_taxonomy "https://github.com/acme/app" "acme" "app"
      (ListingResponse.mk 404 "Not Found" [])
      (Except.ok (ListingResponse.mk 404 "Not Found" []))
      (Except.error ())).2 (by decide)).1 rfl).1

theorem freshInv_of_ne {s : AppState} (h1 : s.codeSourceInfo ≠ none)
    (h2 : s.generatedCode ≠ "") : freshInv s :=
  ⟨fun h => absurd h h1, fun h => absurd h h2⟩

theorem handleGenerate_validation (r : Except String String) (now : Nat) (w : Bool)
    (s : AppState) (hp : (jsTrim s.prompt == "") = true) :
    handleGenerate r now w s =
      { s with error := some "Please enter a description for your application." } := by
  simp [handleGenerate, hp]

theorem handleGenerate_ok_fields (code : String) (now : Nat) (w : Bool)
    (s : AppState) (hp : (jsTrim s.prompt == "") = false) :
    (handleGenerate (Except.ok code) now w s).codeSourceInfo =
      some (CodeSourceInfo.mk SourceType.prompt s.prompt) ∧
    (handleGenerate (Except.ok code) now w s).generatedCode = code := by
  simp [handleGenerate, hp]

theorem handleGenerate_error_fields (msg : String) (now : Nat) (w : Bool)
    (s : AppState) (hp : (jsTrim s.prompt == "") = false) :
    (handleGenerate (Except.error msg) now w s).codeSourceInfo = s.codeSourceInfo ∧
    (handleGenerate (Except.error msg) now w s).generatedCode = s.generatedCode := by
  simp [handleGenerate, hp]

theorem handleRefine_ok_fields (code : String) (now : Nat) (w : Bool)
    (s : AppState) (hp : (jsTrim s.refinementPrompt == "") = false) :
    (handleRefine (Except.ok code) now w s).1.codeSourceInfo = s.codeSourceInfo ∧
    (handleRefine (Except.ok code) now w s).1.generatedCode = code := by
  simp [handleRefine, hp]

theorem handleRefine_error_fields (msg : String) (now : Nat) (w : Bool)
    (s : AppState) (hp : (jsTrim s.refinementPrompt == "") = false) :
    (handleRefine (Except.error msg) now w s).1.codeSourceInfo = s.codeSourceInfo ∧
    (handleRefine (Except.error msg) now w s).1.generatedCode = s.generatedCode := by
  simp [handleRefine, hp]

/-- C4 counterexample: the biconditional "SourceDescriptor is null iff
CodeDocument is empty" is not an invariant of the controller — from the fresh
state, a successful generate followed by a manual edit that deletes all code
reaches a state with a non-null source descriptor and an empty document. -/
theorem fresh_invariant_fails_on_edit :
    ¬ freshInv (step (step (step initialState (Op.setPrompt "Todo app"))
      (Op.generate (Except.ok "<html>A</html>") 1 true)) (Op.edit "")) := by
  unfold freshInv
  decide

/-- C4 amended: the biconditional is preserved by every controller operation
except manual edit, provided the documents an operation installs (generated,
refined, imported, cloned, or loaded code) are non-empty and refine and
restore are invoked with a source loaded, as the UI arranges; manual edit can
break it in either direction. -/
theorem fresh_invariant_preserved (s : AppState) (op : Op) (hs : freshInv s)
    (hok : uiOk op s) : freshInv (step s op) := by
  cases op with
  | setPrompt p => exact hs
  | setRefinement t => exact hs
  | generate r now w =>
    simp only [step]
    by_cases hp : (jsTrim s.prompt == "") = true
    · rw [handleGenerate_validation r now w s hp]
      exact hs
    · rw [Bool.not_eq_true] at hp
      cases r with
      | ok code =>
        have hok' : code ≠ "" := hok
        refine freshInv_of_ne ?_ ?_
        · rw [(handleGenerate_ok_fields code now w s hp).1]
          simp
        · rw [(handleGenerate_ok_fields code now w s hp).2]
          exact hok'
      | error msg =>
        have h := handleGenerate_error_fields msg now w s hp
        unfold freshInv at hs ⊢
        rw [h.1, h.2]
        exact hs
  | refine r now w =>
    simp only [step]
    by_cases hp : (jsTrim s.refinementPrompt == "") = true
    · have hval : handleRefine r now w s =
          ({ s with error := some "Please enter a refinement request." }, false) := by
        simp [handleRefine, hp]
      rw [hval]
      exact hs
    · rw [Bool.not_eq_true] at hp
      cases r with
      | ok code =>
        have hok' : code ≠ "" ∧ s.codeSourceInfo ≠ none := hok
        refine freshInv_of_ne ?_ ?_
        · rw [(handleRefine_ok_fields code now w s hp).1]
          exact hok'.2
        · rw [(handleRefine_ok_fields code now w s hp).2]
          exact hok'.1
      | error msg =>
        have h := handleRefine_error_fields msg now w s hp
        unfold freshInv at hs ⊢
        rw [h.1, h.2]
        exact hs
  | upload c n now w =>
    have hok' : c ≠ "" := hok
    refine freshInv_of_ne ?_ ?_
    · simp [step, handleFileUpload]
    · simpa [step, handleFileUpload] using hok'
  | clone c n now w =>
    have hok' : c ≠ "" := hok
    refine freshInv_of_ne ?_ ?_
    · simp [step, handleClone]
    · simpa [step, handleClone, handleFileUpload] using hok'
  | load name now w =>
    cases hl : s.savedProjects.lookup name with
    | none =>
      have hid : step s (Op.load name now w) = s := by
        simp [step, handleLoad, hl]
      rw [hid]
      exact hs
    | some p =>
      refine freshInv_of_ne ?_ ?_
      · simp [step, handleLoad, hl]
      · simpa [step, handleLoad, hl] using hok p hl
  | restore v now w =>
    cases v with
    | none => exact hs
    | some V =>
      have hok' : V.code ≠ "" ∧ s.codeSourceInfo ≠ none := hok
      refine freshInv_of_ne ?_ ?_
      · simpa [step, confirmRestore] using hok'.2
      · simpa [step, confirmRestore] using hok'.1
  | clear => exact ⟨fun _ => rfl, fun _ => rfl⟩
  | edit c => exact hok.elim

theorem fresh_invariant_preserved_witness :
    freshInv (step initialState Op.clear) :=
  fresh_invariant_preserved initialState Op.clear ⟨fun _ => rfl, fun _ => rfl⟩ trivial

/-- C2: a failed `generate` (with a non-blank prompt, so a request was issued)
leaves the code document, the source descriptor and the ledger — in memory and
in the store — unchanged, clears the previous-code slot, returns the loading
state to idle, and sets an error message. -/
theorem generate_failure_rollback (s : AppState) (msg : String) (now : Nat)
    (writeOk : Bool) (hp : jsTrim s.prompt ≠ "") :
    (handleGenerate (Except.error msg) now writeOk s).generatedCode = s.generatedCode ∧
    (handleGenerate (Except.error msg) now writeOk s).codeSourceInfo = s.codeSourceInfo ∧
    (handleGenerate (Except.error msg) now writeOk s).versionHistory = s.versionHistory ∧
    (handleGenerate (Except.error msg) now writeOk s).store.historySlot = s.store.historySlot ∧
    (handleGenerate (Except.error msg) now writeOk s).previousCode = none ∧
    (handleGenerate (Except.error msg) now writeOk s).loadingState = LoadingState.idle ∧
    (handleGenerate (Except.error msg) now writeOk s).error =
      some ("Generation failed: " ++ msg) := by
  have hb : (jsTrim s.prompt == "") = false := beq_eq_false_iff_ne.2 hp
  simp [handleGenerate, hb]

theorem generate_failure_rollback_witness :
    (handleGenerate (Except.error "boom") 0 true
        { initialState with prompt := "Todo app" }).generatedCode =
      ({ initialState with prompt := "Todo app" } : AppState).generatedCode ∧
    (handleGenerate (Except.error "boom") 0 true
        { initialState with prompt := "Todo app" }).codeSourceInfo =
      ({ initialState with prompt := "Todo app" } : AppState).codeSourceInfo ∧
    (handleGenerate (Except.error "boom") 0 true
        { initialState with prompt := "Todo app" }).versionHistory =
      ({ initialState with prompt := "Todo app" } : AppState).versionHistory ∧
    (handleGenerate (Except.error "boom") 0 true
        { initialState with prompt := "Todo app" }).store.historySlot =
      ({ initialState with prompt := "Todo app" } : AppState).store.historySlot ∧
    (handleGenerate (Except.error "boom") 0 true
        { initialState with prompt := "Todo app" }).previousCode = none ∧
    (handleGenerate (Except.error "boom") 0 true
        { initialState with prompt := "Todo app" }).loadingState = LoadingState.idle ∧
    (handleGenerate (Except.error "boom") 0 true
        { initialState with prompt := "Todo app" }).error =
      some ("Generation failed: " ++ "boom") :=
  generate_failure_rollback { initialState with prompt := "Todo app" } "boom" 0 true
    (by decide)

/-- C3 counterexample: with a non-blank refinement request and an empty code
document, `handleRefine` does not report a validation error and does start the
request (the claimed non-empty-CodeDocument precondition is not checked). -/
theorem refine_no_empty_code_validation :
    ({ initialState with refinementPrompt := "make the button green" } : AppState).generatedCode = "" ∧
    jsTrim ({ initialState with refinementPrompt := "make the button green" } : AppState).refinementPrompt ≠ "" ∧
    (handleRefine (Except.ok "<html>B</html>") 0 true
      { initialState with refinementPrompt := "make the button green" }).2 = true ∧
    (handleRefine (Except.ok "<html>B</html>") 0 true
      { initialState with refinementPrompt := "make the button green" }).1.error = none := by
  refine ⟨rfl, by decide, by decide, by decide⟩

/-- C3 amended: `handleRefine` validates only that the refinement text is
non-blank — a blank text yields the validation error and no request with no
other state change; with a non-blank text the request is started even if the
code document is empty. -/
theorem refine_requires_nonblank_text (s : AppState) (r : Except String String)
    (now : Nat) (writeOk : Bool) :
    (jsTrim s.refinementPrompt = "" →
      handleRefine r now writeOk s =
        ({ s with error := some "Please enter a refinement request." }, false)) ∧
    (jsTrim s.refinementPrompt ≠ "" → (handleRefine r now writeOk s).2 = true) := by
  constructor
  · intro h
    simp [handleRefine, h]
  · intro h
    have hb : (jsTrim s.refinementPrompt == "") = false := beq_eq_false_iff_ne.2 h
    cases r <;> simp [handleRefine, hb]

theorem refine_requires_nonblank_text_witness :
    handleRefine (Except.ok "z") 0 true { initialState with refinementPrompt := "  " } =
      ({ ({ initialState with refinementPrompt := "  " } : AppState) with
          error := some "Please enter a refinement request." }, false) :=
  (refine_requires_nonblank_text { initialState with refinementPrompt := "  " }
    (Except.ok "z") 0 true).1 (by decide)

/-- C6: when the backing store rejects the write during `saveProject`, the
thrown failure reaches the save dialog, which stays open and shows the
message, and neither the in-memory project mapping nor the store changes. -/
theorem save_failure_keeps_dialog_open (d : SaveDialogState) (s : AppState)
    (hn : jsTrim d.projectName ≠ "") :
    (handleSaveClick d false s).1.isOpen = d.isOpen ∧
    (handleSaveClick d false s).1.dialogError =
      some "Could not save the project. Storage might be full." ∧
    (handleSaveClick d false s).2.savedProjects = s.savedProjects ∧
    (handleSaveClick d false s).2.store = s.store := by
  have hb : (jsTrim d.projectName == "") = false := beq_eq_false_iff_ne.2 hn
  simp [handleSaveClick, hb, handleSave, saveProject]

theorem save_failure_keeps_dialog_open_witness :
    (handleSaveClick (SaveDialogState.mk true "My App" false none) false initialState).1.isOpen =
      (SaveDialogState.mk true "My App" false none).isOpen ∧
    (handleSaveClick (SaveDialogState.mk true "My App" false none) false initialState).1.dialogError =
      some "Could not save the project. Storage might be full." ∧
    (handleSaveClick (SaveDialogState.mk true "My App" false none) false initialState).2.savedProjects =
      initialState.savedProjects ∧
    (handleSaveClick (SaveDialogState.mk true "My App" false none) false initialState).2.store =
      initialState.store :=
  save_failure_keeps_dialog_open (SaveDialogState.mk true "My App" false none)
    initialState (by decide)

theorem addToHistory_writeOk_head (code : String) (now : Nat) (st : Store)
    (hb : isBlank code = false) :
    getHistory (addToHistory code now true st).2 = (addToHistory code now true st).1 ∧
    (addToHistory code now true st).1.head?.map CodeVersion.code = some code := by
  by_cases hh : (getHistory st).head?.map CodeVersion.code = some code
  · rw [addToHistory_dup now true st hb hh]
    exact ⟨rfl, hh⟩
  · rw [addToHistory_push now true st hb hh]
    refine ⟨rfl, ?_⟩
    rw [pushHistory, show MAX_HISTORY_ITEMS = 49 + 1 from rfl, List.take_succ_cons]
    rfl

/-- C7: restoring a version `V` (with the append persisted) and then
immediately restoring `V` again leaves the ledger and the store unchanged —
the second append is suppressed by the no-duplicate-head rule. -/
theorem restore_twice_no_duplicate (v : CodeVersion) (s : AppState)
    (now1 now2 : Nat) (w2 : Bool) (hb : isBlank v.code = false) :
    (confirmRestore (some v) now2 w2 (confirmRestore (some v) now1 true s)).versionHistory =
      (confirmRestore (some v) now1 true s).versionHistory ∧
    (confirmRestore (some v) now2 w2 (confirmRestore (some v) now1 true s)).store =
      (confirmRestore (some v) now1 true s).store := by
  have h1 := addToHistory_writeOk_head v.code now1 s.store hb
  have hstore : (confirmRestore (some v) now1 true s).store =
      (addToHistory v.code now1 true s.store).2 := rfl
  have hhist : (confirmRestore (some v) now1 true s).versionHistory =
      (addToHistory v.code now1 true s.store).1 := rfl
  have hnoop : addToHistory v.code now2 w2 (confirmRestore (some v) now1 true s).store =
      (getHistory (confirmRestore (some v) now1 true s).store,
        (confirmRestore (some v) now1 true s).store) := by
    apply addToHistory_dup now2 w2 _ hb
    rw [hstore, h1.1]
    exact h1.2
  constructor
  · show (addToHistory v.code now2 w2 (confirmRestore (some v) now1 true s).store).1 =
      (confirmRestore (some v) now1 true s).versionHistory
    rw [hnoop, hstore, h1.1, hhist]
  · show (addToHistory v.code now2 w2 (confirmRestore (some v) now1 true s).store).2 =
      (confirmRestore (some v) now1 true s).store
    rw [hnoop]

theorem restore_twice_no_duplicate_witness :
    (confirmRestore (some (CodeVersion.mk "<html>A</html>" 1)) 3 true
        (confirmRestore (some (CodeVersion.mk "<html>A</html>" 1)) 2 true initialState)).versionHistory =
      (confirmRestore (some (CodeVersion.mk "<html>A</html>" 1)) 2 true initialState).versionHistory ∧
    (confirmRestore (some (CodeVersion.mk "<html>A</html>" 1)) 3 true
        (confirmRestore (some (CodeVersion.mk "<html>A</html>" 1)) 2 true initialState)).store =
      (confirmRestore (some (CodeVersion.mk "<html>A</html>" 1)) 2 true initialState).store :=
  restore_twice_no_duplicate (CodeVersion.mk "<html>A</html>" 1) initialState 2 3 true
    (by decide)

theorem saveProject_then_list_witness :
    ∃ st1 st2,
      saveProject "app" (SavedProject.mk "<html>A</html>" none none) true emptyStore =
        Except.ok st1 ∧
      saveProject "app" (SavedProject.mk "<html>B</html>" none none) true st1 =
        Except.ok st2 ∧
      (getProjects st1).lookup "app" = some (SavedProject.mk "<html>A</html>" none none) ∧
      (getProjects st2).lookup "app" = some (SavedProject.mk "<html>B</html>" none none) ∧
      ((getProjects st2).map Prod.fst).Nodup ∧
      ((getProjects st2).map Prod.fst).count "app" = 1 :=
  saveProject_then_list "app" (SavedProject.mk "<html>A</html>" none none)
    (SavedProject.mk "<html>B</html>" none none) emptyStore (by decide)

end AIBuilder
